import Mathlib

/-!
# Verification of the call-assistant realtime voice bridge

A shallow embedding of the per-session core of the `call-assistant`
repository: the audio processor (streaming policy, interruption timing),
the Twilio audio handler (bounded queues, media events), the OpenAI
connection manager (receive/keepalive), the function-call processor and
the session-level handlers of `RealTimeOpenAiVoiceAssistantV2`.

Pure data is translated directly from the Python sources; effectful
callbacks (`on_audio_ready`, `on_tool_result`, websocket sends, ...) are
modelled by returning explicit lists of emitted messages, and wall-clock
readings (`time.time()`) are passed in as explicit arguments.
-/

namespace CallAssistant

/-- Byte strings are lists of naturals; a well-formed byte is `< 256`. -/
abbrev ByteStr := List Nat

/-- Total length in bytes of a list of chunks. -/
def totalLen (chunks : List ByteStr) : Nat := (chunks.map List.length).sum

/-- Python `int()` applied to a float/rational: truncation toward zero
(`Rat.floor`/`Rat.ceil` are the executable floor and ceiling). -/
def pyInt (q : ℚ) : ℤ := if 0 ≤ q then q.floor else q.ceil

/-- Python `min` on two numbers (returns the first argument on ties). -/
def pyMin (a b : ℚ) : ℚ := if a ≤ b then a else b

/-! ## Base64 (Python `base64.b64encode` / `b64decode`, RFC 4648) -/

/-- The standard base64 alphabet. -/
def b64chars : List Char :=
  "ABCDEFGHIJKLMNOPQRSTUVWXYZabcdefghijklmnopqrstuvwxyz0123456789+/".toList

/-- The alphabet character for a 6-bit value. -/
def encChar (n : Nat) : Char := b64chars.getD n 'A'

/-- The 6-bit value of an alphabet character (`64` for a non-alphabet char). -/
def decChar (c : Char) : Nat := b64chars.indexOf c

/-- `base64.b64encode`: groups of three bytes become four alphabet
characters; a final group of one or two bytes is padded with `'='`. -/
def b64encode : ByteStr → List Char
  | [] => []
  | [a] => [encChar (a / 4), encChar (a % 4 * 16), '=', '=']
  | [a, b] => [encChar (a / 4), encChar (a % 4 * 16 + b / 16), encChar (b % 16 * 4), '=']
  | a :: b :: c :: rest =>
      encChar (a / 4) :: encChar (a % 4 * 16 + b / 16) ::
      encChar (b % 16 * 4 + c / 64) :: encChar (c % 64) :: b64encode rest

/-- `base64.b64decode` on well-formed input: four characters at a time,
honouring `'='` padding.  (On malformed input the Python library raises;
the call sites catch and drop, so the value returned here for malformed
input is never used by the model.) -/
def b64decode : List Char → ByteStr
  | c1 :: c2 :: c3 :: c4 :: rest =>
      if c3 = '=' then [decChar c1 * 4 + decChar c2 / 16]
      else if c4 = '=' then
        [decChar c1 * 4 + decChar c2 / 16, decChar c2 % 16 * 16 + decChar c3 / 4]
      else
        (decChar c1 * 4 + decChar c2 / 16) :: (decChar c2 % 16 * 16 + decChar c3 / 4) ::
        (decChar c3 % 4 * 64 + decChar c4) :: b64decode rest
  | _ => []

/-! ## Audio processor (`src/openai_voice/audio_processor.py`) -/

/-- Modelled from the spec: `AudioStreamingMode` is imported from `config`
in the source, but its definition is not under `src/`; spec §4.4 fixes its
three values `Individual`, `Windowed`, `Accumulate`. -/
inductive AudioStreamingMode
  | individual
  | windowed
  | accumulate
deriving DecidableEq, Repr

/-- State of `AudioProcessor`. Wall-clock floats (`time.time()*1000`) are
rationals passed in by the caller; the `window_timer_task` handle is not
modelled (real-time timers are outside the embedding); callbacks are
modelled as emission lists returned by each operation. -/
structure AudioProcessor where
  currentAudioChunks : List ByteStr
  currentResponseId : Option String
  currentAudioSize : Nat
  maxAudioMemoryMb : Nat
  maxChunksPerResponse : Nat
  streamingMode : AudioStreamingMode
  windowSizeChunks : Nat
  /-- Stored in seconds (the constructor divides the argument by 1000). -/
  windowTimeoutMs : ℚ
  immediateThresholdBytes : Nat
  windowChunks : List ByteStr
  windowStartTime : Option ℚ
  audioStartTime : Option ℚ
  totalAudioDurationMs : ℚ
  lastAssistantItem : Option String
  responseStartTimestamp : Option ℚ
deriving DecidableEq, Repr

/-- `AudioProcessor.__init__` (defaults as in the source). -/
def mkAudioProcessor (maxMemoryMb : Nat := 50) (maxChunksPerResponse : Nat := 1000)
    (streamingMode : AudioStreamingMode := .accumulate) (windowSizeChunks : Nat := 10)
    (windowTimeoutMs : ℚ := 200) (immediateThresholdBytes : Nat := 1024) : AudioProcessor :=
  { currentAudioChunks := []
    currentResponseId := none
    currentAudioSize := 0
    maxAudioMemoryMb := maxMemoryMb
    maxChunksPerResponse := maxChunksPerResponse
    streamingMode := streamingMode
    windowSizeChunks := windowSizeChunks
    windowTimeoutMs := windowTimeoutMs / 1000
    immediateThresholdBytes := immediateThresholdBytes
    windowChunks := []
    windowStartTime := none
    audioStartTime := none
    totalAudioDurationMs := 0
    lastAssistantItem := none
    responseStartTimestamp := none }

/-- A callback fired by the audio processor: `on_audio_ready(bytes)` or
`on_memory_limit_reached(current_chunks)`. -/
inductive AudioEmit
  | ready (bytes : ByteStr)
  | memoryLimit (chunks : List ByteStr)
deriving DecidableEq, Repr

/-- `AudioProcessor.reset_for_new_response`. -/
def resetForNewResponse (s : AudioProcessor) (responseId : String) (now : ℚ) :
    AudioProcessor :=
  { s with currentAudioChunks := []
           windowChunks := []
           currentResponseId := some responseId
           currentAudioSize := 0
           responseStartTimestamp := some now
           windowStartTime := none }

/-- `AudioProcessor._send_window_chunks`. -/
def sendWindowChunks (s : AudioProcessor) : AudioProcessor × List AudioEmit :=
  if s.windowChunks = [] then (s, [])
  else ({ s with windowChunks := [], windowStartTime := none },
        [.ready s.windowChunks.flatten])

/-- `AudioProcessor.clear_accumulation`. -/
def clearAccumulation (s : AudioProcessor) : AudioProcessor :=
  { s with currentAudioChunks := []
           windowChunks := []
           currentResponseId := none
           currentAudioSize := 0
           windowStartTime := none }

/-- Body of `AudioProcessor.add_audio_chunk` after the new-item reset:
limit checks followed by the mode dispatch. -/
def addAudioChunkCore (s : AudioProcessor) (audioData : ByteStr) (now : ℚ) :
    AudioProcessor × List AudioEmit × Bool :=
  let audioSize := audioData.length
  let maxMemoryBytes := s.maxAudioMemoryMb * 1024 * 1024
  if s.streamingMode = .accumulate ∧ s.currentAudioSize + audioSize > maxMemoryBytes then
    (s, [.memoryLimit s.currentAudioChunks], false)
  else if s.streamingMode = .accumulate ∧
      s.currentAudioChunks.length ≥ s.maxChunksPerResponse then
    (s, [.memoryLimit s.currentAudioChunks], false)
  else if s.streamingMode = .individual then
    (s, [.ready audioData], true)
  else if s.streamingMode = .windowed then
    let s := { s with windowChunks := s.windowChunks ++ [audioData] }
    let s := if s.windowStartTime = none then { s with windowStartTime := some now } else s
    if s.windowChunks.length ≥ s.windowSizeChunks ∨
        audioSize ≥ s.immediateThresholdBytes then
      let r := sendWindowChunks s
      (r.1, r.2, true)
    else (s, [], true)
  else if s.streamingMode = .accumulate then
    ({ s with currentAudioChunks := s.currentAudioChunks ++ [audioData]
              currentAudioSize := s.currentAudioSize + audioSize }, [], true)
  else (s, [], true)

/-- `AudioProcessor.add_audio_chunk`: returns the new state, the callback
emissions, and the `True`/`False` result. -/
def addAudioChunk (s : AudioProcessor) (audioData : ByteStr) (itemId : String)
    (now : ℚ) : AudioProcessor × List AudioEmit × Bool :=
  addAudioChunkCore
    (if s.lastAssistantItem ≠ some itemId then
       resetForNewResponse { s with lastAssistantItem := some itemId } itemId now
     else s)
    audioData now

/-- `AudioProcessor.finalize_response`: emissions plus the returned
combined audio (`None` when nothing was accumulated). -/
def finalizeResponse (s : AudioProcessor) :
    AudioProcessor × List AudioEmit × Option ByteStr :=
  let (s, ems) := if s.streamingMode = .windowed ∧ s.windowChunks ≠ [] then
                    sendWindowChunks s
                  else (s, [])
  if s.streamingMode = .accumulate ∧ s.currentAudioChunks ≠ [] then
    let combined := s.currentAudioChunks.flatten
    (clearAccumulation s, ems ++ [.ready combined], some combined)
  else
    (clearAccumulation s, ems, none)

/-- `AudioProcessor.track_input_audio`: PCM16 at 24 kHz, so
`duration_ms = len / 2 / 24 * 1000`. -/
def trackInputAudio (s : AudioProcessor) (numBytes : Nat) (now : ℚ) : AudioProcessor :=
  { s with totalAudioDurationMs := s.totalAudioDurationMs + (numBytes : ℚ) / 2 / 24 * 1000
           audioStartTime := if s.audioStartTime = none then some now else s.audioStartTime }

/-- `AudioProcessor.calculate_interrupt_timing`.  Python's
`if not self.response_start_timestamp` is falsy both for `None` and `0.0`. -/
def calculateInterruptTiming (s : AudioProcessor) (now : ℚ) : ℤ :=
  match s.responseStartTimestamp with
  | none => 0
  | some t =>
      if t = 0 then 0
      else pyInt (pyMin (now - t) s.totalAudioDurationMs)

/-- `AudioProcessor.reset_input_timing`. -/
def resetInputTiming (s : AudioProcessor) (now : ℚ) : AudioProcessor :=
  { s with audioStartTime := some now, totalAudioDurationMs := 0 }

/-- `AudioProcessor.set_streaming_mode` (optional keyword updates). -/
def setStreamingMode (s : AudioProcessor) (mode : AudioStreamingMode)
    (windowSizeChunks : Option Nat := none) (windowTimeoutMs : Option ℚ := none)
    (immediateThresholdBytes : Option Nat := none) : AudioProcessor :=
  { s with streamingMode := mode
           windowSizeChunks := windowSizeChunks.getD s.windowSizeChunks
           windowTimeoutMs := (windowTimeoutMs.map (· / 1000)).getD s.windowTimeoutMs
           immediateThresholdBytes := immediateThresholdBytes.getD s.immediateThresholdBytes }

/-- Process a list of `(delta, item_id)` pairs in order, concatenating
the emissions of each `add_audio_chunk` call. -/
def addAudioChunks (s : AudioProcessor) (ds : List (ByteStr × String)) (now : ℚ) :
    AudioProcessor × List AudioEmit :=
  match ds with
  | [] => (s, [])
  | (d, item) :: rest =>
      let r := addAudioChunk s d item now
      let r2 := addAudioChunks r.1 rest now
      (r2.1, r.2.1 ++ r2.2)

/-! ## Driving the audio processor through arbitrary operation sequences -/

/-- One externally triggered audio-processor operation. -/
inductive APOp
  | add (delta : ByteStr) (itemId : String) (now : ℚ)
  | finalize
  | clear
  | resetInput (now : ℚ)
  | trackInput (numBytes : Nat) (now : ℚ)
  | setMode (mode : AudioStreamingMode)

/-- State transition of one operation (emissions dropped). -/
def apStep (s : AudioProcessor) : APOp → AudioProcessor
  | .add d i t => (addAudioChunk s d i t).1
  | .finalize => (finalizeResponse s).1
  | .clear => clearAccumulation s
  | .resetInput t => resetInputTiming s t
  | .trackInput n t => trackInputAudio s n t
  | .setMode m => setStreamingMode s m

/-- Run a sequence of operations. -/
def apRun (s : AudioProcessor) (ops : List APOp) : AudioProcessor := ops.foldl apStep s

/-- The accumulator caps of spec §3: byte total and chunk count bounded. -/
def AccumCapsInv (s : AudioProcessor) : Prop :=
  s.currentAudioSize ≤ s.maxAudioMemoryMb * 1024 * 1024 ∧
  s.currentAudioChunks.length ≤ s.maxChunksPerResponse

/-! ## Session-level handlers (`src/openai_voice/modular_assistant.py`) -/

/-- `VoiceAssistantState` from `config.py`. -/
inductive VoiceAssistantState
  | disconnected
  | connecting
  | connected
  | listening
  | speaking
  | error
deriving DecidableEq, Repr

/-- The serialized `output` payload of a `function_call_output` item:
the `{status:"executing", ...}` acknowledgment, a real result
(`json.dumps(result)`), or an error object. -/
inductive FCOutput
  | executing
  | result (value : String)
  | failed (message : String)
deriving DecidableEq, Repr

/-- Envelope sent by the session on the OpenAI websocket through
`connection_manager.send_message`. -/
inductive OutMsg
  | truncate (itemId : String) (contentIndex : Nat) (audioEndMs : ℤ)
  | functionCallOutput (callId : String) (output : FCOutput)
  | responseCreate
  | inputAudioAppend (audio : List Char)
  | conversationItemMessage (text : String)
deriving DecidableEq, Repr

/-- Python truthiness of an `Optional[str]`: `None` and `""` are falsy. -/
def pyTruthyStr : Option String → Bool
  | none => false
  | some s => s ≠ ""

/-- The part of `RealTimeOpenAiVoiceAssistantV2` state that the
speech-started/interrupt path reads and writes. -/
structure Assistant where
  ap : AudioProcessor
  state : VoiceAssistantState
deriving DecidableEq, Repr

/-- `RealTimeOpenAiVoiceAssistantV2.interrupt_response`: emits at most one
`conversation.item.truncate` and clears the accumulator.  (The companion
`audio_handler.clear_audio_buffer()` call empties the handler queues; the
handler is modelled separately.) -/
def interruptResponse (a : Assistant) (now : ℚ) : Assistant × List OutMsg :=
  let audioEndMs := calculateInterruptTiming a.ap now
  if pyTruthyStr a.ap.lastAssistantItem ∧ audioEndMs > 0 then
    ({ a with ap := clearAccumulation a.ap },
     [.truncate (a.ap.lastAssistantItem.getD "") 0 audioEndMs])
  else (a, [])

/-- `_handle_openai_message` specialised to
`input_audio_buffer.speech_started`: the event router first dispatches the
internal name `speech_started` to the registered `AudioProcessor`
(`handle_event` → `reset_input_timing`), and only afterwards
`_handle_direct_events` sets the state to `LISTENING` and, if a response
is in flight, invokes `interrupt_response`. -/
def handleSpeechStarted (a : Assistant) (now : ℚ) : Assistant × List OutMsg :=
  let a := { a with ap := resetInputTiming a.ap now }
  let a := { a with state := .listening }
  if pyTruthyStr a.ap.lastAssistantItem then interruptResponse a now
  else (a, [])

/-- `_handle_audio_memory_limit`: joins the chunks passed by
`on_memory_limit_reached` and forwards them to `audio_handler.send_audio`
(empty chunk lists are ignored). -/
def handleAudioMemoryLimit (currentChunks : List ByteStr) : List ByteStr :=
  if currentChunks ≠ [] then [currentChunks.flatten] else []

/-- A session state with a model response in flight: the last assistant
item is `"item_1"`, its audio started at wall-clock 1000 ms, and 200 ms of
input audio have been tracked since the last reset. -/
def inFlightAssistant : Assistant :=
  { ap := { mkAudioProcessor with
              lastAssistantItem := some "item_1"
              currentResponseId := some "item_1"
              currentAudioChunks := [[1], [2]]
              currentAudioSize := 2
              responseStartTimestamp := some 1000
              totalAudioDurationMs := 200 }
    state := .speaking }

/-- A concrete accumulator one byte below a zero memory cap, used to
witness the C5 breach behaviour. -/
def breachState : AudioProcessor :=
  { mkAudioProcessor 0 1000 .accumulate with
      lastAssistantItem := some "i"
      currentResponseId := some "i"
      currentAudioChunks := [[9]]
      currentAudioSize := 1 }

/-! ## Twilio audio handler (`src/audio_handlers/twilio_handler.py`) -/

/-- State of `TwilioAudioHandler`: the two bounded `asyncio.Queue`s plus
the Twilio stream bookkeeping.  The output-pump task and the websocket
are external; frames they carry are modelled where needed. -/
structure TwilioAudioHandler where
  inputQueue : List ByteStr
  outputQueue : List ByteStr
  /-- `TWILIO_AUDIO_QUEUE_SIZE` (default 100). -/
  maxSize : Nat
  streamSid : Option String
  latestMediaTimestamp : Int
  markQueue : List String
  responseStartTimestamp : Option ℚ
  lastAssistantItem : Option String
deriving DecidableEq, Repr

/-- `TwilioAudioHandler.__init__`. -/
def mkTwilioHandler (size : Nat) : TwilioAudioHandler :=
  { inputQueue := []
    outputQueue := []
    maxSize := size
    streamSid := none
    latestMediaTimestamp := 0
    markQueue := []
    responseStartTimestamp := none
    lastAssistantItem := none }

/-- `asyncio.Queue.full()`: true only when `maxsize` is positive and the
queue holds at least `maxsize` items. -/
def queueFull (q : List ByteStr) (maxSize : Nat) : Prop :=
  0 < maxSize ∧ maxSize ≤ q.length

instance (q : List ByteStr) (m : Nat) : Decidable (queueFull q m) := by
  unfold queueFull; infer_instance

/-- `TwilioAudioHandler.send_audio`: empty payloads are ignored; a full
output queue drops the newest payload with a warning; exceptions are
caught, so the producer never blocks and never sees one. -/
def sendAudio (s : TwilioAudioHandler) (audioData : ByteStr) : TwilioAudioHandler :=
  if audioData = [] then s
  else if queueFull s.outputQueue s.maxSize then s
  else { s with outputQueue := s.outputQueue ++ [audioData] }

/-- `TwilioAudioHandler.add_input_audio`: empty payloads are ignored, the
payload is base64-decoded (a decode error is caught and the frame
dropped), and a full input queue drops the newest payload. -/
def addInputAudio (s : TwilioAudioHandler) (audioData : List Char) : TwilioAudioHandler :=
  if audioData = [] then s
  else
    let mulawBytes := b64decode audioData
    if queueFull s.inputQueue s.maxSize then s
    else { s with inputQueue := s.inputQueue ++ [mulawBytes] }

/-- `TwilioAudioHandler.receive_audio`: dequeue with a 100 ms timeout;
`none` models the timeout on an empty queue. -/
def receiveAudio (s : TwilioAudioHandler) : TwilioAudioHandler × Option ByteStr :=
  match s.inputQueue with
  | [] => (s, none)
  | b :: rest => ({ s with inputQueue := rest }, some b)

/-- `TwilioAudioHandler.get_output_audio`. -/
def getOutputAudio (s : TwilioAudioHandler) : TwilioAudioHandler × Option ByteStr :=
  match s.outputQueue with
  | [] => (s, none)
  | b :: rest => ({ s with outputQueue := rest }, some b)

/-- `TwilioAudioHandler.clear_audio_buffer`: drain both queues. -/
def clearAudioBuffer (s : TwilioAudioHandler) : TwilioAudioHandler :=
  { s with inputQueue := [], outputQueue := [] }

/-- An inbound Twilio frame, after JSON parsing, restricted to the fields
`handle_twilio_event` reads.  `media` carries the base64 payload and the
already-`int`-converted timestamp. -/
inductive TwilioEvent
  | start (streamSid : String)
  | media (payload : List Char) (timestamp : Int)
  | mark
  | other
deriving DecidableEq, Repr

/-- `TwilioAudioHandler.handle_twilio_event`. -/
def handleTwilioEvent (s : TwilioAudioHandler) : TwilioEvent → TwilioAudioHandler
  | .start sid =>
      { s with streamSid := some sid
               latestMediaTimestamp := 0
               lastAssistantItem := none
               responseStartTimestamp := none }
  | .media payload t =>
      if payload ≠ [] then
        addInputAudio { s with latestMediaTimestamp := t } payload
      else s
  | .mark => { s with markQueue := s.markQueue.tail }
  | .other => s

/-- One externally triggered audio-handler operation. -/
inductive THOp
  | event (e : TwilioEvent)
  | send (audioData : ByteStr)
  | addInput (payload : List Char)
  | recv
  | getOutput
  | clearBuffers

/-- State transition of one handler operation. -/
def thStep (s : TwilioAudioHandler) : THOp → TwilioAudioHandler
  | .event e => handleTwilioEvent s e
  | .send d => sendAudio s d
  | .addInput p => addInputAudio s p
  | .recv => (receiveAudio s).1
  | .getOutput => (getOutputAudio s).1
  | .clearBuffers => clearAudioBuffer s

/-- Run a sequence of handler operations. -/
def thRun (s : TwilioAudioHandler) (ops : List THOp) : TwilioAudioHandler :=
  ops.foldl thStep s

/-- `RealTimeOpenAiVoiceAssistantV2.send_audio_data`: tracks input timing
on the audio processor and emits one `input_audio_buffer.append` envelope
whose `audio` is the base64 encoding of the bytes. -/
def sendAudioData (ap : AudioProcessor) (audioData : ByteStr) (now : ℚ) :
    AudioProcessor × OutMsg :=
  (trackInputAudio ap audioData.length now, .inputAudioAppend (b64encode audioData))

/-! ## OpenAI connection manager (`src/openai_voice/connection_manager.py`) -/

/-- Outcome of one `websocket.recv()` under the 1-second deadline of
`receive_message`. -/
inductive WireRead
  | timeout
  | closed
  | badJson
  | message (m : String)
deriving DecidableEq, Repr

/-- Connection-manager state relevant to receive/keepalive/teardown. -/
structure ConnectionManager where
  isConnected : Bool
  websocketOpen : Bool
  keepaliveRunning : Bool
deriving DecidableEq, Repr

/-- The deadline (seconds) passed to `asyncio.wait_for` in
`receive_message`. -/
def receiveTimeoutSecs : ℚ := 1

/-- `OpenAIConnectionManager.receive_message`: returns the updated state,
the received message (`none` is the "no message" sentinel), and whether
`on_connection_lost` fired. -/
def receiveMessage (c : ConnectionManager) (r : WireRead) :
    ConnectionManager × Option String × Bool :=
  if ¬ c.websocketOpen ∨ ¬ c.isConnected then (c, none, false)
  else
    match r with
    | .timeout => (c, none, false)
    | .closed => ({ c with isConnected := false }, none, true)
    | .badJson => (c, none, false)
    | .message m => (c, some m, false)

/-- One `_keepalive_loop` iteration whose `websocket.ping()` raised: the
connection is marked lost and `on_connection_lost` fires (second
component). -/
def keepalivePingFailed (c : ConnectionManager) : ConnectionManager × Bool :=
  if c.websocketOpen ∧ c.isConnected then ({ c with isConnected := false }, true)
  else (c, false)

/-- `_handle_connection_lost` on the session: the state moves to `ERROR`
(and the error callback fires). -/
def handleConnectionLost (_state : VoiceAssistantState) : VoiceAssistantState := .error

/-- `OpenAIConnectionManager.disconnect`: mark disconnected, cancel the
keepalive task, close and drop the websocket. -/
def connDisconnect (c : ConnectionManager) : ConnectionManager :=
  { c with isConnected := false, keepaliveRunning := false, websocketOpen := false }

/-! ## Function call processor (`src/openai_voice/function_call_processor.py`) -/

/-- One entry of `pending_function_calls`. -/
structure PendingFunctionCall where
  arguments : String
  name : Option String
  callId : String
deriving DecidableEq, Repr

/-- State of `FunctionCallProcessor`: the pending-call dict (association
list), the set of in-flight tool tasks (task ids), and the registered
tool names. -/
structure FunctionCallProcessor where
  nonBlockingToolsCalling : Bool
  pendingFunctionCalls : List (String × PendingFunctionCall)
  activeToolTasks : List Nat
  tools : List String
deriving DecidableEq, Repr

/-- Dict update keyed by call id: replace in place when present, append
otherwise. -/
def setPending (l : List (String × PendingFunctionCall)) (cid : String)
    (v : PendingFunctionCall) : List (String × PendingFunctionCall) :=
  if (l.lookup cid).isSome then
    l.map (fun p => if p.1 = cid then (cid, v) else p)
  else l ++ [(cid, v)]

/-- `handle_function_call_delta`: accumulate the delta (creating the entry
on first sight) and record the function name when the frame carries one. -/
def handleFunctionCallDelta (s : FunctionCallProcessor) (callId : Option String)
    (delta : String) (name : Option String) : FunctionCallProcessor :=
  match callId with
  | none => s
  | some cid =>
      let entry := ((s.pendingFunctionCalls.lookup cid).getD ⟨"", none, cid⟩)
      let entry := { entry with arguments := entry.arguments ++ delta }
      let entry := match name with
                   | some n => { entry with name := some n }
                   | none => entry
      { s with pendingFunctionCalls := setPending s.pendingFunctionCalls cid entry }

/-- `_handle_tool_started` on the session: one immediate
`function_call_output` with the `{status:"executing", ...}` payload. -/
def handleToolStarted (callId : String) : List OutMsg :=
  [.functionCallOutput callId .executing]

/-- `_handle_tool_result` on the session: send the `function_call_output`;
only non-"executing" payloads are followed (after the 100 ms debounce) by
`response.create`. -/
def handleToolResult (callId : String) (output : FCOutput) : List OutMsg :=
  match output with
  | .executing => [.functionCallOutput callId .executing]
  | o => [.functionCallOutput callId o, .responseCreate]

/-- `_handle_tool_error` on the session: a `function_call_output` with an
error payload followed by `response.create`. -/
def handleToolError (callId : String) (message : String) : List OutMsg :=
  [.functionCallOutput callId (.failed message), .responseCreate]

/-- `execute_tool` for a registered tool.  Non-blocking: `on_tool_started`
fires (one executing acknowledgment), then `on_tool_result` is called with
the `{status:"executing"}` payload (a second executing acknowledgment, no
`response.create`), and the coroutine is scheduled and registered in
`active_tool_tasks`.  Blocking: the awaited result (or the raised error,
caught in `handle_function_call_done`) is sent with `response.create`. -/
def executeTool (s : FunctionCallProcessor) (callId : String) (taskId : Nat)
    (blockingOutcome : Except String String) : FunctionCallProcessor × List OutMsg :=
  if s.nonBlockingToolsCalling then
    ({ s with activeToolTasks := s.activeToolTasks ++ [taskId] },
     handleToolStarted callId ++ handleToolResult callId .executing)
  else
    match blockingOutcome with
    | .ok r => (s, handleToolResult callId (.result r))
    | .error e => (s, handleToolError callId e)

/-- `_execute_tool_async` finishing plus its `add_done_callback`: the task
is discarded from `active_tool_tasks` and the real result (or the error)
is sent, followed by `response.create`. -/
def toolTaskComplete (s : FunctionCallProcessor) (taskId : Nat) (callId : String)
    (outcome : Except String String) : FunctionCallProcessor × List OutMsg :=
  ({ s with activeToolTasks := s.activeToolTasks.filter (· ≠ taskId) },
   match outcome with
   | .ok r => handleToolResult callId (.result r)
   | .error e => handleToolError callId e)

/-- The fields of a `response.function_call_arguments.done` frame that
`handle_function_call_done` reads. -/
structure DoneEvent where
  name : Option String
  callId : String
  arguments : Option String
deriving DecidableEq, Repr

/-- `handle_function_call_done`.  `parseOk` abstracts `json.loads` success
on the argument string, `taskId` the task handle `asyncio.create_task`
would return, and `blockingOutcome` the awaited tool in blocking mode;
the processor's bookkeeping does not depend on their values.  Python
truthiness: an accumulated name is only overridden when the frame's
`name` is truthy. -/
def handleFunctionCallDone (s : FunctionCallProcessor) (ev : DoneEvent)
    (parseOk : String → Bool) (taskId : Nat)
    (blockingOutcome : Except String String) :
    FunctionCallProcessor × List OutMsg :=
  let acc := s.pendingFunctionCalls.lookup ev.callId
  let s' := match acc with
            | some _ =>
                { s with pendingFunctionCalls :=
                    s.pendingFunctionCalls.filter (fun p => p.1 ≠ ev.callId) }
            | none => s
  let argumentsStr := match acc with
                      | some a => a.arguments
                      | none => ev.arguments.getD "{}"
  let functionName : Option String :=
    match acc with
    | some a => if pyTruthyStr ev.name then ev.name else a.name
    | none => ev.name
  match functionName with
  | none => (s', handleToolError ev.callId "Unknown function")
  | some n =>
      if n ∉ s'.tools then (s', handleToolError ev.callId "Unknown function")
      else if ¬ parseOk argumentsStr then (s', handleToolError ev.callId "Invalid JSON")
      else executeTool s' ev.callId taskId blockingOutcome

/-- `cancel_all_tasks`: cancel every in-flight tool task and clear the
set. -/
def cancelAllTasks (s : FunctionCallProcessor) : FunctionCallProcessor :=
  { s with activeToolTasks := [] }

/-- `clear_pending_calls`. -/
def clearPendingCalls (s : FunctionCallProcessor) : FunctionCallProcessor :=
  { s with pendingFunctionCalls := [] }

/-! ## Session teardown (`RealTimeOpenAiVoiceAssistantV2.disconnect`) -/

/-- The per-session state that `disconnect` touches. -/
structure Session where
  fc : FunctionCallProcessor
  ap : AudioProcessor
  conn : ConnectionManager
  state : VoiceAssistantState
deriving DecidableEq, Repr

/-- `disconnect`: cancel all background tool tasks, clear accumulated
audio and pending calls, close the OpenAI connection, move to
`DISCONNECTED`. -/
def sessionDisconnect (s : Session) : Session :=
  { fc := clearPendingCalls (cancelAllTasks s.fc)
    ap := clearAccumulation s.ap
    conn := connDisconnect s.conn
    state := .disconnected }

/-- A concrete mid-call session used as the C7 witness input. -/
def liveSession : Session :=
  { fc := { nonBlockingToolsCalling := true
            pendingFunctionCalls := [("c1", ⟨"argdata", some "f", "c1"⟩)]
            activeToolTasks := [3, 4]
            tools := ["f"] }
    ap := inFlightAssistant.ap
    conn := ⟨true, true, true⟩
    state := .speaking }

/-- A handler whose queues are both full (capacity 1), used to witness the
drop-newest branch of C6. -/
def fullHandler : TwilioAudioHandler :=
  { mkTwilioHandler 1 with inputQueue := [[1]], outputQueue := [[2]] }

/-- A processor with one registered tool `"f"` and the accumulated
arguments of call `"c1"`, as left by the argument-delta stream. -/
def c2Processor : FunctionCallProcessor :=
  { nonBlockingToolsCalling := true
    pendingFunctionCalls := [("c1", ⟨"argjson", some "f", "c1"⟩)]
    activeToolTasks := []
    tools := ["f"] }

/-! ## Properties -/

theorem decChar_encChar : ∀ n, n < 64 → decChar (encChar n) = n := by decide

theorem encChar_ne_pad : ∀ n, n < 64 → encChar n ≠ '=' := by decide

theorem b64decode_pad2 (c1 c2 : Char) :
    b64decode [c1, c2, '=', '='] = [decChar c1 * 4 + decChar c2 / 16] := by
  simp [b64decode]

theorem b64decode_pad1 (c1 c2 c3 : Char) (h : c3 ≠ '=') :
    b64decode [c1, c2, c3, '='] =
      [decChar c1 * 4 + decChar c2 / 16, decChar c2 % 16 * 16 + decChar c3 / 4] := by
  simp [b64decode, h]

theorem b64decode_full (c1 c2 c3 c4 : Char) (rest : List Char)
    (h3 : c3 ≠ '=') (h4 : c4 ≠ '=') :
    b64decode (c1 :: c2 :: c3 :: c4 :: rest) =
      (decChar c1 * 4 + decChar c2 / 16) :: (decChar c2 % 16 * 16 + decChar c3 / 4) ::
      (decChar c3 % 4 * 64 + decChar c4) :: b64decode rest := by
  simp [b64decode, h3, h4]

theorem mulAdd_div (x y k : Nat) (hk : 0 < k) (hy : y < k) : (x * k + y) / k = x := by
  rw [Nat.add_comm, Nat.add_mul_div_right _ _ hk, Nat.div_eq_of_lt hy, Nat.zero_add]

theorem mulAdd_mod (x y k : Nat) (hy : y < k) : (x * k + y) % k = y := by
  rw [Nat.add_comm, Nat.add_mul_mod_self_right, Nat.mod_eq_of_lt hy]

theorem b64decode_b64encode (bs : ByteStr) (h : ∀ x ∈ bs, x < 256) :
    b64decode (b64encode bs) = bs := by
  induction bs using b64encode.induct with
  | case1 => simp [b64encode, b64decode]
  | case2 a =>
      have ha : a < 256 := h a (by simp)
      have h1 : a / 4 < 64 := by omega
      have h2 : a % 4 * 16 < 64 := by omega
      rw [show b64encode [a] = [encChar (a / 4), encChar (a % 4 * 16), '=', '='] from rfl,
        b64decode_pad2, decChar_encChar _ h1, decChar_encChar _ h2,
        Nat.mul_div_cancel _ (by norm_num : (0:ℕ) < 16)]
      simp only [List.cons.injEq, and_true]
      omega
  | case3 a b =>
      have ha : a < 256 := h a (by simp)
      have hb : b < 256 := h b (by simp)
      have h1 : a / 4 < 64 := by omega
      have h2 : a % 4 * 16 + b / 16 < 64 := by omega
      have h3 : b % 16 * 4 < 64 := by omega
      rw [show b64encode [a, b] =
            [encChar (a / 4), encChar (a % 4 * 16 + b / 16), encChar (b % 16 * 4), '='] from rfl,
        b64decode_pad1 _ _ _ (encChar_ne_pad _ h3),
        decChar_encChar _ h1, decChar_encChar _ h2, decChar_encChar _ h3,
        mulAdd_div _ _ _ (by norm_num) (by omega : b / 16 < 16),
        mulAdd_mod _ _ _ (by omega : b / 16 < 16),
        Nat.mul_div_cancel _ (by norm_num : (0:ℕ) < 4)]
      simp only [List.cons.injEq, and_true]
      omega
  | case4 a b c rest ih =>
      have ha : a < 256 := h a (by simp)
      have hb : b < 256 := h b (by simp)
      have hc : c < 256 := h c (by simp)
      have h1 : a / 4 < 64 := by omega
      have h2 : a % 4 * 16 + b / 16 < 64 := by omega
      have h3 : b % 16 * 4 + c / 64 < 64 := by omega
      have h4 : c % 64 < 64 := by omega
      have hrest : ∀ x ∈ rest, x < 256 := by
        intro x hx; exact h x (by simp [hx])
      rw [show b64encode (a :: b :: c :: rest) =
            encChar (a / 4) :: encChar (a % 4 * 16 + b / 16) ::
            encChar (b % 16 * 4 + c / 64) :: encChar (c % 64) :: b64encode rest from rfl,
        b64decode_full _ _ _ _ _ (encChar_ne_pad _ h3) (encChar_ne_pad _ h4),
        decChar_encChar _ h1, decChar_encChar _ h2, decChar_encChar _ h3,
        decChar_encChar _ h4, ih hrest,
        mulAdd_div _ _ _ (by norm_num) (by omega : b / 16 < 16),
        mulAdd_mod _ _ _ (by omega : b / 16 < 16),
        mulAdd_div _ _ _ (by norm_num) (by omega : c / 64 < 4),
        mulAdd_mod _ _ _ (by omega : c / 64 < 4)]
      simp only [List.cons.injEq, and_true]
      omega

/-- In `Accumulate` mode, a same-item delta within both caps is simply
appended: no callback fires and `True` is returned. -/
theorem addAudioChunk_accumulate_ok (s : AudioProcessor) (d : ByteStr) (item : String)
    (now : ℚ) (hm : s.streamingMode = .accumulate)
    (hitem : s.lastAssistantItem = some item)
    (hsize : s.currentAudioSize + d.length ≤ s.maxAudioMemoryMb * 1024 * 1024)
    (hcnt : s.currentAudioChunks.length < s.maxChunksPerResponse) :
    addAudioChunk s d item now =
      ({ s with currentAudioChunks := s.currentAudioChunks ++ [d]
                currentAudioSize := s.currentAudioSize + d.length }, [], true) := by
  have hns : ¬ (s.currentAudioSize + d.length > s.maxAudioMemoryMb * 1024 * 1024) := by
    omega
  have hnc : ¬ (s.currentAudioChunks.length ≥ s.maxChunksPerResponse) := by omega
  simp [addAudioChunk, addAudioChunkCore, hitem, hm, hns, hnc]

/-- A delta for a new `item_id` in `Accumulate` mode discards the pending
accumulation (no flush emission), rebinds the response id and records the
response start timestamp, then accumulates the new delta. -/
theorem addAudioChunk_newItem (s : AudioProcessor) (d : ByteStr) (item : String)
    (now : ℚ) (hm : s.streamingMode = .accumulate)
    (hitem : s.lastAssistantItem ≠ some item)
    (hsize : d.length ≤ s.maxAudioMemoryMb * 1024 * 1024)
    (hcnt : 0 < s.maxChunksPerResponse) :
    addAudioChunk s d item now =
      ({ s with lastAssistantItem := some item
                currentAudioChunks := [d]
                windowChunks := []
                currentResponseId := some item
                currentAudioSize := d.length
                responseStartTimestamp := some now
                windowStartTime := none }, [], true) := by
  have hns : ¬ (0 + d.length > s.maxAudioMemoryMb * 1024 * 1024) := by omega
  have hnc : ¬ (s.maxChunksPerResponse ≤ 0) := by omega
  simp [addAudioChunk, addAudioChunkCore, resetForNewResponse, hitem, hm, hns, hnc, hsize]

/-- In `Accumulate` mode, a same-item delta that would breach the memory
cap fires `on_memory_limit_reached` with the pending chunks, returns
`False`, and leaves the whole state unchanged (nothing is cleared). -/
theorem addAudioChunk_memoryBreach (s : AudioProcessor) (d : ByteStr) (item : String)
    (now : ℚ) (hm : s.streamingMode = .accumulate)
    (hitem : s.lastAssistantItem = some item)
    (hsize : s.currentAudioSize + d.length > s.maxAudioMemoryMb * 1024 * 1024) :
    addAudioChunk s d item now = (s, [.memoryLimit s.currentAudioChunks], false) := by
  simp [addAudioChunk, addAudioChunkCore, hitem, hm, hsize]

/-- In `Accumulate` mode, a same-item delta arriving when the chunk count
has reached the cap fires `on_memory_limit_reached`, returns `False`, and
leaves the whole state unchanged. -/
theorem addAudioChunk_chunkBreach (s : AudioProcessor) (d : ByteStr) (item : String)
    (now : ℚ) (hm : s.streamingMode = .accumulate)
    (hitem : s.lastAssistantItem = some item)
    (hsize : s.currentAudioSize + d.length ≤ s.maxAudioMemoryMb * 1024 * 1024)
    (hcnt : s.currentAudioChunks.length ≥ s.maxChunksPerResponse) :
    addAudioChunk s d item now = (s, [.memoryLimit s.currentAudioChunks], false) := by
  have hns : ¬ (s.currentAudioSize + d.length > s.maxAudioMemoryMb * 1024 * 1024) := by
    omega
  have hc : s.maxChunksPerResponse ≤ s.currentAudioChunks.length := hcnt
  simp [addAudioChunk, addAudioChunkCore, hitem, hm, hns, hc]

theorem totalLen_cons (d : ByteStr) (ds : List ByteStr) :
    totalLen (d :: ds) = d.length + totalLen ds := by
  simp [totalLen]

/-- Accumulating a same-item run of deltas that stays within both caps
appends them in order, emits nothing, and adds up the byte count. -/
theorem addAudioChunks_accumulate (ds : List ByteStr) :
    ∀ (s : AudioProcessor) (item : String) (now : ℚ),
    s.streamingMode = .accumulate →
    s.lastAssistantItem = some item →
    s.currentAudioChunks.length + ds.length ≤ s.maxChunksPerResponse →
    s.currentAudioSize + totalLen ds ≤ s.maxAudioMemoryMb * 1024 * 1024 →
    addAudioChunks s (ds.map (fun d => (d, item))) now =
      ({ s with currentAudioChunks := s.currentAudioChunks ++ ds
                currentAudioSize := s.currentAudioSize + totalLen ds }, []) := by
  induction ds with
  | nil =>
      intro s item now _ _ _ _
      simp [addAudioChunks, totalLen]
  | cons d rest ih =>
      intro s item now hm hi hc hs
      simp only [List.length_cons] at hc
      rw [totalLen_cons] at hs
      have h1 : s.currentAudioSize + d.length ≤ s.maxAudioMemoryMb * 1024 * 1024 := by
        have := (totalLen rest).zero_le
        omega
      have h2 : s.currentAudioChunks.length < s.maxChunksPerResponse := by omega
      simp only [List.map, addAudioChunks,
        addAudioChunk_accumulate_ok s d item now hm hi h1 h2]
      rw [ih _ item now (by simp [hm]) (by simp [hi])
        (by simp; omega)
        (by simp; omega)]
      simp [totalLen_cons]
      omega

theorem sendWindowChunks_fields (s : AudioProcessor) :
    (sendWindowChunks s).1.currentAudioChunks = s.currentAudioChunks ∧
    (sendWindowChunks s).1.currentAudioSize = s.currentAudioSize ∧
    (sendWindowChunks s).1.maxAudioMemoryMb = s.maxAudioMemoryMb ∧
    (sendWindowChunks s).1.maxChunksPerResponse = s.maxChunksPerResponse := by
  simp only [sendWindowChunks]
  split_ifs <;> simp

theorem sendWindowChunks_inv (s : AudioProcessor) (h : AccumCapsInv s) :
    AccumCapsInv (sendWindowChunks s).1 := by
  have hf := sendWindowChunks_fields s
  unfold AccumCapsInv at *
  rw [hf.1, hf.2.1, hf.2.2.1, hf.2.2.2]
  exact h

theorem addAudioChunkCore_inv (s : AudioProcessor) (d : ByteStr) (now : ℚ)
    (h : AccumCapsInv s) : AccumCapsInv (addAudioChunkCore s d now).1 := by
  obtain ⟨ha, hb⟩ := h
  cases hm : s.streamingMode with
  | individual =>
      simp [addAudioChunkCore, hm]
      exact ⟨ha, hb⟩
  | windowed =>
      simp only [addAudioChunkCore, hm]
      split_ifs <;>
        first
          | exact sendWindowChunks_inv _ ⟨ha, hb⟩
          | exact ⟨ha, hb⟩
  | accumulate =>
      by_cases hb1 : s.currentAudioSize + d.length > s.maxAudioMemoryMb * 1024 * 1024
      · simp [addAudioChunkCore, hm, hb1]
        exact ⟨ha, hb⟩
      · by_cases hb2 : s.currentAudioChunks.length ≥ s.maxChunksPerResponse
        · simp [addAudioChunkCore, hm, hb1, hb2]
          exact ⟨ha, hb⟩
        · simp [addAudioChunkCore, hm, hb1, hb2, AccumCapsInv]
          omega

theorem addAudioChunk_inv (s : AudioProcessor) (d : ByteStr) (item : String) (now : ℚ)
    (h : AccumCapsInv s) : AccumCapsInv (addAudioChunk s d item now).1 := by
  unfold addAudioChunk
  split_ifs with hr
  · exact addAudioChunkCore_inv _ _ _ (by simp [AccumCapsInv, resetForNewResponse])
  · exact addAudioChunkCore_inv _ _ _ h

theorem apStep_inv (s : AudioProcessor) (op : APOp) (h : AccumCapsInv s) :
    AccumCapsInv (apStep s op) := by
  cases op with
  | add d i t => exact addAudioChunk_inv s d i t h
  | finalize =>
      simp only [apStep, finalizeResponse]
      split_ifs <;> simp [AccumCapsInv, clearAccumulation]
  | clear => simp [apStep, AccumCapsInv, clearAccumulation]
  | resetInput t => simpa [apStep, AccumCapsInv, resetInputTiming] using h
  | trackInput n t => simpa [apStep, AccumCapsInv, trackInputAudio] using h
  | setMode m => simpa [apStep, AccumCapsInv, setStreamingMode] using h

theorem apRun_inv (ops : List APOp) : ∀ (s : AudioProcessor), AccumCapsInv s →
    AccumCapsInv (apRun s ops) := by
  induction ops with
  | nil => intro s h; exact h
  | cons op rest ih =>
      intro s h
      exact ih (apStep s op) (apStep_inv s op h)

/-- C1: the claim fails on the code.  When `input_audio_buffer.speech_started`
arrives at wall-clock 1120 ms with a response in flight
(`responseStartMs = 1000`, `inputDurationMs = 200`), the formula of the
claim gives `min(1120 − 1000, 200) = 120`, and indeed
`calculate_interrupt_timing` evaluated on the pre-event state returns 120.
But the session handler first dispatches `speech_started` to the audio
processor, whose `reset_input_timing` zeroes `total_audio_duration_ms`;
the subsequent `interrupt_response` therefore computes
`min(120, 0) = 0` and, because it only sends when `audio_end_ms > 0`,
emits no `conversation.item.truncate` at all — not exactly one. -/
theorem c1_speech_started_emits_no_truncate :
    calculateInterruptTiming inFlightAssistant.ap 1120 = 120 ∧
    pyTruthyStr inFlightAssistant.ap.lastAssistantItem = true ∧
    (handleSpeechStarted inFlightAssistant 1120).2 = [] ∧
    calculateInterruptTiming (resetInputTiming inFlightAssistant.ap 1120) 1120 = 0 := by
  refine ⟨?_, by decide, ?_, ?_⟩
  · norm_num [calculateInterruptTiming, inFlightAssistant, mkAudioProcessor, pyInt,
      pyMin, Rat.floor_def']
  · norm_num [handleSpeechStarted, interruptResponse, resetInputTiming,
      calculateInterruptTiming, inFlightAssistant, mkAudioProcessor, pyInt, pyMin,
      pyTruthyStr, Rat.floor_def']
  · norm_num [calculateInterruptTiming, resetInputTiming, inFlightAssistant,
      mkAudioProcessor, pyInt, pyMin, Rat.floor_def']

/-- C3: in `Accumulate` mode, a run of same-item deltas inside the caps
forwards nothing while accumulating; `finalize_response` then fires
`on_audio_ready` exactly once with the byte-wise concatenation of all the
deltas (and returns that concatenation), and the resulting state is
cleared — the code emits first and clears afterwards, in that order. -/
theorem c3_accumulate_flush_exactness (item : String) (ds : List ByteStr) (now : ℚ)
    (mm mc : Nat) (hne : ds ≠ []) (hc : ds.length ≤ mc)
    (hs : totalLen ds ≤ mm * 1024 * 1024) :
    (addAudioChunks (mkAudioProcessor mm mc .accumulate)
        (ds.map (fun d => (d, item))) now).2 = [] ∧
    (finalizeResponse (addAudioChunks (mkAudioProcessor mm mc .accumulate)
        (ds.map (fun d => (d, item))) now).1).2.1 = [.ready ds.flatten] ∧
    (finalizeResponse (addAudioChunks (mkAudioProcessor mm mc .accumulate)
        (ds.map (fun d => (d, item))) now).1).2.2 = some ds.flatten ∧
    (finalizeResponse (addAudioChunks (mkAudioProcessor mm mc .accumulate)
        (ds.map (fun d => (d, item))) now).1).1.currentAudioChunks = [] ∧
    (finalizeResponse (addAudioChunks (mkAudioProcessor mm mc .accumulate)
        (ds.map (fun d => (d, item))) now).1).1.currentAudioSize = 0 ∧
    (finalizeResponse (addAudioChunks (mkAudioProcessor mm mc .accumulate)
        (ds.map (fun d => (d, item))) now).1).1.currentResponseId = none := by
  rcases ds with _ | ⟨d, rest⟩
  · exact absurd rfl hne
  simp only [List.length_cons] at hc
  rw [totalLen_cons] at hs
  have hnew := addAudioChunk_newItem (mkAudioProcessor mm mc .accumulate) d item now
    (by simp [mkAudioProcessor]) (by simp [mkAudioProcessor])
    (by simp only [mkAudioProcessor]; have := (totalLen rest).zero_le; omega)
    (by simp only [mkAudioProcessor]; omega)
  have hacc := addAudioChunks_accumulate rest
    ({ mkAudioProcessor mm mc .accumulate with
         lastAssistantItem := some item
         currentAudioChunks := [d]
         windowChunks := []
         currentResponseId := some item
         currentAudioSize := d.length
         responseStartTimestamp := some now
         windowStartTime := none })
    item now (by simp [mkAudioProcessor]) (by simp)
    (by simp only [mkAudioProcessor, List.length_singleton]; omega)
    (by simp only [mkAudioProcessor]; omega)
  simp only [List.map_cons, addAudioChunks, hnew, hacc]
  simp [finalizeResponse, clearAccumulation, mkAudioProcessor]

/-- Witness for the C3 theorem at a concrete run: three one-byte deltas
`"A" "B" "C"` for item `"I"` under the default caps. -/
theorem c3_flush_witness :
    (([[65], [66], [67]] : List ByteStr) ≠ [] ∧
      ([[65], [66], [67]] : List ByteStr).length ≤ 1000 ∧
      totalLen [[65], [66], [67]] ≤ 50 * 1024 * 1024) ∧
    ((addAudioChunks (mkAudioProcessor 50 1000 .accumulate)
        (([[65], [66], [67]] : List ByteStr).map (fun d => (d, "I"))) 0).2 = [] ∧
      (finalizeResponse (addAudioChunks (mkAudioProcessor 50 1000 .accumulate)
          (([[65], [66], [67]] : List ByteStr).map (fun d => (d, "I"))) 0).1).2.1 =
        [.ready ([[65], [66], [67]] : List ByteStr).flatten]) := by
  refine ⟨⟨by decide, by decide, by decide⟩, ?_⟩
  have h := c3_accumulate_flush_exactness "I" [[65], [66], [67]] 0 50 1000
    (by decide) (by decide) (by decide)
  exact ⟨h.1, h.2.1⟩

/-- C4 counterexample: the claim says a delta with a new `item_id` first
*flushes* the pending response.  In `Accumulate` mode with `"A"` pending
for `item1`, the arrival of a delta for `item2` emits nothing at all — the
pending byte 65 is silently discarded — while `currentResponseId` is
rebound to `item2`. -/
theorem c4_new_item_no_flush_counterexample :
    (addAudioChunks (mkAudioProcessor 50 1000 .accumulate)
        [([65], "item1"), ([66], "item2")] 0).2 = [] ∧
    (addAudioChunks (mkAudioProcessor 50 1000 .accumulate)
        [([65], "item1"), ([66], "item2")] 0).1.currentAudioChunks = [[66]] ∧
    (addAudioChunks (mkAudioProcessor 50 1000 .accumulate)
        [([65], "item1"), ([66], "item2")] 0).1.currentResponseId = some "item2" := by
  refine ⟨?_, ?_, ?_⟩ <;>
    simp [addAudioChunks, addAudioChunk, addAudioChunkCore, resetForNewResponse,
      mkAudioProcessor]

/-- C4 as amended: when a delta arrives with an `item_id` different from
the last assistant item in `Accumulate` mode, the pending accumulation is
*discarded* (cleared without any flush emission), and only then is
`currentResponseId` bound to the new item and `responseStartMs` set to the
current time, after which the new delta is accumulated. -/
theorem c4_new_item_discards_pending (s : AudioProcessor) (d : ByteStr) (item : String)
    (now : ℚ) (hm : s.streamingMode = .accumulate)
    (hitem : s.lastAssistantItem ≠ some item)
    (hsize : d.length ≤ s.maxAudioMemoryMb * 1024 * 1024)
    (hcnt : 0 < s.maxChunksPerResponse) :
    (addAudioChunk s d item now).2.1 = [] ∧
    (addAudioChunk s d item now).1.currentResponseId = some item ∧
    (addAudioChunk s d item now).1.responseStartTimestamp = some now ∧
    (addAudioChunk s d item now).1.currentAudioChunks = [d] ∧
    (addAudioChunk s d item now).1.lastAssistantItem = some item := by
  simp [addAudioChunk_newItem s d item now hm hitem hsize hcnt]

/-- Witness for the C4 theorem: a new item `"item_2"` arriving while
`"item_1"` is pending with one accumulated chunk. -/
theorem c4_new_item_witness :
    (inFlightAssistant.ap.streamingMode = .accumulate ∧
      inFlightAssistant.ap.lastAssistantItem ≠ some "item_2" ∧
      ([7] : ByteStr).length ≤ inFlightAssistant.ap.maxAudioMemoryMb * 1024 * 1024 ∧
      0 < inFlightAssistant.ap.maxChunksPerResponse) ∧
    ((addAudioChunk inFlightAssistant.ap [7] "item_2" 5).2.1 = [] ∧
      (addAudioChunk inFlightAssistant.ap [7] "item_2" 5).1.currentResponseId =
        some "item_2" ∧
      (addAudioChunk inFlightAssistant.ap [7] "item_2" 5).1.responseStartTimestamp =
        some 5 ∧
      (addAudioChunk inFlightAssistant.ap [7] "item_2" 5).1.currentAudioChunks = [[7]] ∧
      (addAudioChunk inFlightAssistant.ap [7] "item_2" 5).1.lastAssistantItem =
        some "item_2") := by
  refine ⟨⟨by decide, by decide, by decide, by decide⟩, ?_⟩
  exact c4_new_item_discards_pending inFlightAssistant.ap [7] "item_2" 5
    (by decide) (by decide) (by decide) (by decide)

/-- C5 counterexample: the claim says a cap breach flushes early *and
accumulation then resumes*.  With `max_chunks_per_response = 1`, after the
first delta fills the accumulator, every further delta re-fires the early
flush with the *same* old chunk and is itself dropped: the accumulator
still holds only `[[1]]` after three deltas, and the identical early batch
was emitted twice.  Accumulation never resumes. -/
theorem c5_breach_no_resume_counterexample :
    (addAudioChunks (mkAudioProcessor 50 1 .accumulate)
        [([1], "i"), ([2], "i"), ([3], "i")] 0).2 =
      [.memoryLimit [[1]], .memoryLimit [[1]]] ∧
    (addAudioChunks (mkAudioProcessor 50 1 .accumulate)
        [([1], "i"), ([2], "i"), ([3], "i")] 0).1.currentAudioChunks = [[1]] := by
  refine ⟨?_, ?_⟩ <;>
    simp [addAudioChunks, addAudioChunk, addAudioChunkCore, resetForNewResponse,
      mkAudioProcessor]

/-- C5 as amended: the accumulator caps hold as an invariant along every
operation sequence; a delta that would breach the memory cap (or arrives
with the chunk cap reached) fires `on_memory_limit_reached`, whose handler
joins and forwards the accumulated audio to the outbound path, and returns
`False` without raising — but the breaching delta is dropped and the
accumulator state is left untouched, so accumulation does not resume. -/
theorem c5_caps_invariant_and_early_flush :
    (∀ (mm mc : Nat) (mode : AudioStreamingMode) (ops : List APOp),
        (apRun (mkAudioProcessor mm mc mode) ops).currentAudioSize ≤
          (apRun (mkAudioProcessor mm mc mode) ops).maxAudioMemoryMb * 1024 * 1024 ∧
        (apRun (mkAudioProcessor mm mc mode) ops).currentAudioChunks.length ≤
          (apRun (mkAudioProcessor mm mc mode) ops).maxChunksPerResponse) ∧
    (∀ (s : AudioProcessor) (d : ByteStr) (item : String) (now : ℚ),
        s.streamingMode = .accumulate → s.lastAssistantItem = some item →
        s.currentAudioSize + d.length > s.maxAudioMemoryMb * 1024 * 1024 →
        s.currentAudioChunks ≠ [] →
        addAudioChunk s d item now = (s, [.memoryLimit s.currentAudioChunks], false) ∧
        handleAudioMemoryLimit s.currentAudioChunks = [s.currentAudioChunks.flatten]) ∧
    (∀ (s : AudioProcessor) (d : ByteStr) (item : String) (now : ℚ),
        s.streamingMode = .accumulate → s.lastAssistantItem = some item →
        s.currentAudioSize + d.length ≤ s.maxAudioMemoryMb * 1024 * 1024 →
        s.currentAudioChunks.length ≥ s.maxChunksPerResponse →
        s.currentAudioChunks ≠ [] →
        addAudioChunk s d item now = (s, [.memoryLimit s.currentAudioChunks], false) ∧
        handleAudioMemoryLimit s.currentAudioChunks = [s.currentAudioChunks.flatten]) := by
  refine ⟨?_, ?_, ?_⟩
  · intro mm mc mode ops
    exact apRun_inv ops (mkAudioProcessor mm mc mode)
      (by constructor <;> simp [mkAudioProcessor])
  · intro s d item now hm hitem hsize hne
    exact ⟨addAudioChunk_memoryBreach s d item now hm hitem hsize,
      by simp [handleAudioMemoryLimit, hne]⟩
  · intro s d item now hm hitem hsize hcnt hne
    exact ⟨addAudioChunk_chunkBreach s d item now hm hitem hsize hcnt,
      by simp [handleAudioMemoryLimit, hne]⟩

/-- Witness for the C5 theorem: the invariant after a concrete operation
sequence, and the memory-cap breach behaviour on `breachState`. -/
theorem c5_witness :
    ((apRun (mkAudioProcessor 50 1000 .accumulate)
        [.add [1] "i" 0, .finalize]).currentAudioSize ≤
      (apRun (mkAudioProcessor 50 1000 .accumulate)
        [.add [1] "i" 0, .finalize]).maxAudioMemoryMb * 1024 * 1024) ∧
    (breachState.streamingMode = .accumulate ∧
      breachState.lastAssistantItem = some "i" ∧
      breachState.currentAudioSize + ([2] : ByteStr).length >
        breachState.maxAudioMemoryMb * 1024 * 1024 ∧
      breachState.currentAudioChunks ≠ []) ∧
    (addAudioChunk breachState [2] "i" 0 =
        (breachState, [.memoryLimit breachState.currentAudioChunks], false) ∧
      handleAudioMemoryLimit breachState.currentAudioChunks =
        [breachState.currentAudioChunks.flatten]) := by
  refine ⟨(c5_caps_invariant_and_early_flush.1 50 1000 .accumulate
      [.add [1] "i" 0, .finalize]).1,
    ⟨by decide, by decide, by decide, by decide⟩, ?_⟩
  exact c5_caps_invariant_and_early_flush.2.1 breachState [2] "i" 0
    (by decide) (by decide) (by decide) (by decide)

theorem sessionDisconnect_idem (s : Session) :
    sessionDisconnect (sessionDisconnect s) = sessionDisconnect s := rfl

/-- C7: `disconnect` is idempotent — `N ≥ 1` invocations from any state
leave the same final state as one invocation: state `Disconnected`,
accumulated audio cleared, pending calls cleared, tool tasks cancelled,
and the LLM websocket closed. -/
theorem c7_disconnect_idempotent (s : Session) (n : Nat) (hn : 1 ≤ n) :
    sessionDisconnect^[n] s = sessionDisconnect s ∧
    (sessionDisconnect s).state = .disconnected ∧
    (sessionDisconnect s).ap.currentAudioChunks = [] ∧
    (sessionDisconnect s).ap.currentAudioSize = 0 ∧
    (sessionDisconnect s).fc.pendingFunctionCalls = [] ∧
    (sessionDisconnect s).fc.activeToolTasks = [] ∧
    (sessionDisconnect s).conn.websocketOpen = false ∧
    (sessionDisconnect s).conn.isConnected = false := by
  refine ⟨?_, rfl, rfl, rfl, rfl, rfl, rfl, rfl⟩
  obtain ⟨m, rfl⟩ : ∃ m, n = m + 1 := ⟨n - 1, by omega⟩
  induction m with
  | zero => rfl
  | succ k ih =>
      rw [Function.iterate_succ_apply', ih (by omega), sessionDisconnect_idem]

/-- Witness for the C7 theorem: three disconnects of a live session. -/
theorem c7_disconnect_witness :
    (1 ≤ 3) ∧
    (sessionDisconnect^[3] liveSession = sessionDisconnect liveSession ∧
      (sessionDisconnect liveSession).state = .disconnected ∧
      (sessionDisconnect liveSession).ap.currentAudioChunks = [] ∧
      (sessionDisconnect liveSession).ap.currentAudioSize = 0 ∧
      (sessionDisconnect liveSession).fc.pendingFunctionCalls = [] ∧
      (sessionDisconnect liveSession).fc.activeToolTasks = [] ∧
      (sessionDisconnect liveSession).conn.websocketOpen = false ∧
      (sessionDisconnect liveSession).conn.isConnected = false) :=
  ⟨by decide, c7_disconnect_idempotent liveSession 3 (by decide)⟩

theorem sendAudio_maxSize (s : TwilioAudioHandler) (d : ByteStr) :
    (sendAudio s d).maxSize = s.maxSize := by
  unfold sendAudio; split_ifs <;> rfl

theorem addInputAudio_maxSize (s : TwilioAudioHandler) (p : List Char) :
    (addInputAudio s p).maxSize = s.maxSize := by
  unfold addInputAudio; split_ifs <;> rfl

theorem thStep_maxSize (s : TwilioAudioHandler) (op : THOp) :
    (thStep s op).maxSize = s.maxSize := by
  cases op with
  | event e =>
      cases e with
      | start sid => rfl
      | media p t =>
          simp only [thStep, handleTwilioEvent]
          split_ifs
          · rw [addInputAudio_maxSize]
          · rfl
      | mark => rfl
      | other => rfl
  | send d => exact sendAudio_maxSize s d
  | addInput p => exact addInputAudio_maxSize s p
  | recv =>
      simp only [thStep, receiveAudio]
      rcases s.inputQueue <;> rfl
  | getOutput =>
      simp only [thStep, getOutputAudio]
      rcases s.outputQueue <;> rfl
  | clearBuffers => rfl

theorem thRun_maxSize (ops : List THOp) : ∀ (s : TwilioAudioHandler),
    (thRun s ops).maxSize = s.maxSize := by
  induction ops with
  | nil => intro s; rfl
  | cons op rest ih =>
      intro s
      rw [thRun, List.foldl_cons, ← thRun, ih, thStep_maxSize]

/-- Depth bound preservation for one handler operation. -/
theorem thStep_inv (s : TwilioAudioHandler) (op : THOp) (h1 : 0 < s.maxSize)
    (h2 : s.inputQueue.length ≤ s.maxSize) (h3 : s.outputQueue.length ≤ s.maxSize) :
    (thStep s op).inputQueue.length ≤ (thStep s op).maxSize ∧
    (thStep s op).outputQueue.length ≤ (thStep s op).maxSize := by
  rw [thStep_maxSize]
  cases op with
  | event e =>
      cases e with
      | start sid => exact ⟨h2, h3⟩
      | media p t =>
          simp only [thStep, handleTwilioEvent]
          split_ifs
          · unfold addInputAudio queueFull
            split_ifs <;> simp_all <;> omega
          · exact ⟨h2, h3⟩
      | mark => exact ⟨h2, h3⟩
      | other => exact ⟨h2, h3⟩
  | send d =>
      simp only [thStep]
      unfold sendAudio queueFull
      split_ifs <;> simp_all <;> omega
  | addInput p =>
      simp only [thStep]
      unfold addInputAudio queueFull
      split_ifs <;> simp_all <;> omega
  | recv =>
      simp only [thStep, receiveAudio]
      rcases hq : s.inputQueue with _ | ⟨b, rest⟩
      · exact ⟨by simpa [hq] using h2, h3⟩
      · rw [hq] at h2
        simp only [List.length_cons] at h2
        exact ⟨by simpa using (by omega : rest.length ≤ s.maxSize), h3⟩
  | getOutput =>
      simp only [thStep, getOutputAudio]
      rcases hq : s.outputQueue with _ | ⟨b, rest⟩
      · exact ⟨h2, by simpa [hq] using h3⟩
      · rw [hq] at h3
        simp only [List.length_cons] at h3
        exact ⟨h2, by simpa using (by omega : rest.length ≤ s.maxSize)⟩
  | clearBuffers => simp [thStep, clearAudioBuffer]

theorem thRun_inv (ops : List THOp) : ∀ (s : TwilioAudioHandler), 0 < s.maxSize →
    s.inputQueue.length ≤ s.maxSize → s.outputQueue.length ≤ s.maxSize →
    (thRun s ops).inputQueue.length ≤ (thRun s ops).maxSize ∧
    (thRun s ops).outputQueue.length ≤ (thRun s ops).maxSize := by
  induction ops with
  | nil => intro s _ h2 h3; exact ⟨h2, h3⟩
  | cons op rest ih =>
      intro s h1 h2 h3
      have hs := thStep_inv s op h1 h2 h3
      have hm : 0 < (thStep s op).maxSize := by rw [thStep_maxSize]; exact h1
      rw [thRun, List.foldl_cons, ← thRun]
      exact ih (thStep s op) hm hs.1 hs.2

/-- C6: starting from a fresh handler with positive queue capacity, the
depth of both audio queues stays within the capacity along any operation
sequence; moreover an enqueue on a full queue leaves the handler unchanged
(drop-newest with a warning), and every operation is a total function —
the producer is never blocked and never sees an exception. -/
theorem c6_queue_bounds (size : Nat) (ops : List THOp) (s : TwilioAudioHandler)
    (d : ByteStr) (p : List Char) (hpos : 0 < size)
    (hofull : queueFull s.outputQueue s.maxSize)
    (hifull : queueFull s.inputQueue s.maxSize) :
    (thRun (mkTwilioHandler size) ops).inputQueue.length ≤ size ∧
    (thRun (mkTwilioHandler size) ops).outputQueue.length ≤ size ∧
    sendAudio s d = s ∧
    addInputAudio s p = s := by
  have hms : (thRun (mkTwilioHandler size) ops).maxSize = size := by
    rw [thRun_maxSize]
    rfl
  have h := thRun_inv ops (mkTwilioHandler size)
    (by simpa [mkTwilioHandler] using hpos) (by simp [mkTwilioHandler])
    (by simp [mkTwilioHandler])
  refine ⟨le_trans h.1 (le_of_eq hms), le_trans h.2 (le_of_eq hms), ?_, ?_⟩
  · unfold sendAudio
    split_ifs <;> simp_all
  · unfold addInputAudio
    split_ifs <;> simp_all

/-- Witness for the C6 theorem: a concrete operation burst against
capacity 2 and the drop-newest behaviour on a full capacity-1 handler. -/
theorem c6_queue_bounds_witness :
    (0 < 2 ∧ queueFull fullHandler.outputQueue fullHandler.maxSize ∧
      queueFull fullHandler.inputQueue fullHandler.maxSize) ∧
    ((thRun (mkTwilioHandler 2)
        [.send [1], .send [2], .send [3], .addInput ['A', 'A', 'A', 'A'],
         .addInput ['B', 'Q', 'A', 'A'], .addInput ['C', 'g', 'A', 'A'],
         .recv]).inputQueue.length ≤ 2 ∧
      (thRun (mkTwilioHandler 2)
        [.send [1], .send [2], .send [3], .addInput ['A', 'A', 'A', 'A'],
         .addInput ['B', 'Q', 'A', 'A'], .addInput ['C', 'g', 'A', 'A'],
         .recv]).outputQueue.length ≤ 2 ∧
      sendAudio fullHandler [9] = fullHandler ∧
      addInputAudio fullHandler ['A', 'A', 'A', 'A'] = fullHandler) := by
  refine ⟨⟨by decide, by decide, by decide⟩, ?_⟩
  exact c6_queue_bounds 2
    [.send [1], .send [2], .send [3], .addInput ['A', 'A', 'A', 'A'],
     .addInput ['B', 'Q', 'A', 'A'], .addInput ['C', 'g', 'A', 'A'], .recv]
    fullHandler [9] ['A', 'A', 'A', 'A'] (by decide) (by decide) (by decide)

/-- C8 counterexample: contrary to the claim, a non-decodable frame is
*not* reported as connection lost.  On a live connection a `badJson` read
returns the "no message" sentinel with the connection-lost flag `false`
and the connection still marked up (transient-I/O handling, spec §7). -/
theorem c8_bad_json_not_connection_lost :
    receiveMessage ⟨true, true, true⟩ .badJson = (⟨true, true, true⟩, none, false) := by
  decide

/-- C8 as amended: `receive_message` uses a 1-second deadline; a deadline
miss returns the `none` sentinel without error; a socket close marks the
connection lost and fires the registered handler, after which the session
handler moves the state to `Error`; a keepalive ping failure does the
same; a non-decodable frame, however, is treated as transient — it
returns the sentinel, fires nothing, and leaves the state unchanged. -/
theorem c8_receive_semantics (c : ConnectionManager) (st : VoiceAssistantState)
    (hopen : c.websocketOpen = true) (hconn : c.isConnected = true) :
    receiveTimeoutSecs = 1 ∧
    receiveMessage c .timeout = (c, none, false) ∧
    receiveMessage c .closed = ({ c with isConnected := false }, none, true) ∧
    keepalivePingFailed c = ({ c with isConnected := false }, true) ∧
    handleConnectionLost st = .error ∧
    receiveMessage c .badJson = (c, none, false) := by
  refine ⟨rfl, ?_, ?_, ?_, rfl, ?_⟩ <;>
    simp [receiveMessage, keepalivePingFailed, hopen, hconn]

/-- Witness for the C8 theorem on a live connection in state `Connected`. -/
theorem c8_receive_witness :
    ((⟨true, true, true⟩ : ConnectionManager).websocketOpen = true ∧
      (⟨true, true, true⟩ : ConnectionManager).isConnected = true) ∧
    (receiveTimeoutSecs = 1 ∧
      receiveMessage ⟨true, true, true⟩ .timeout = (⟨true, true, true⟩, none, false) ∧
      receiveMessage ⟨true, true, true⟩ .closed =
        ({ (⟨true, true, true⟩ : ConnectionManager) with isConnected := false },
          none, true) ∧
      keepalivePingFailed ⟨true, true, true⟩ =
        ({ (⟨true, true, true⟩ : ConnectionManager) with isConnected := false }, true) ∧
      handleConnectionLost .connected = .error ∧
      receiveMessage ⟨true, true, true⟩ .badJson = (⟨true, true, true⟩, none, false)) :=
  ⟨⟨by decide, by decide⟩, c8_receive_semantics ⟨true, true, true⟩ .connected rfl rfl⟩

/-- C9: a `media` frame whose payload is canonical base64 (the encoding of
some byte string) sets `latestMediaTimestamp` to the frame's
`int`-converted timestamp and enqueues the decoded bytes on the inbound
queue; re-encoding the decoded bytes reproduces the payload, so the
`input_audio_buffer.append` envelope later emitted by `send_audio_data`
for those bytes carries `audio` equal to the original payload. -/
theorem c9_media_frame_roundtrip (s : TwilioAudioHandler) (bs : ByteStr) (t : Int)
    (ap : AudioProcessor) (now : ℚ)
    (hbytes : ∀ x ∈ bs, x < 256) (hne : b64encode bs ≠ [])
    (hfull : ¬ queueFull s.inputQueue s.maxSize) :
    handleTwilioEvent s (.media (b64encode bs) t) =
      { s with latestMediaTimestamp := t, inputQueue := s.inputQueue ++ [bs] } ∧
    b64encode (b64decode (b64encode bs)) = b64encode bs ∧
    (sendAudioData ap (b64decode (b64encode bs)) now).2 =
      .inputAudioAppend (b64encode bs) := by
  have hdec := b64decode_b64encode bs hbytes
  refine ⟨?_, by rw [hdec], by simp [sendAudioData, hdec]⟩
  simp [handleTwilioEvent, hne, addInputAudio, hdec, hfull]

/-- Witness for the C9 theorem: spec scenario (a) — payload `"AAAA"`
(the encoding of three zero bytes) with timestamp 20 against a fresh
handler of capacity 100. -/
theorem c9_media_frame_witness :
    ((∀ x ∈ ([0, 0, 0] : ByteStr), x < 256) ∧
      b64encode [0, 0, 0] ≠ [] ∧
      ¬ queueFull (mkTwilioHandler 100).inputQueue (mkTwilioHandler 100).maxSize) ∧
    (handleTwilioEvent (mkTwilioHandler 100) (.media (b64encode [0, 0, 0]) 20) =
        { mkTwilioHandler 100 with
            latestMediaTimestamp := 20
            inputQueue := (mkTwilioHandler 100).inputQueue ++ [[0, 0, 0]] } ∧
      b64encode (b64decode (b64encode [0, 0, 0])) = b64encode [0, 0, 0] ∧
      (sendAudioData mkAudioProcessor (b64decode (b64encode [0, 0, 0])) 0).2 =
        .inputAudioAppend (b64encode [0, 0, 0])) :=
  ⟨⟨by decide, by decide, by decide⟩,
    c9_media_frame_roundtrip (mkTwilioHandler 100) [0, 0, 0] 20 mkAudioProcessor 0
      (by decide) (by decide) (by decide)⟩

/-- C2 counterexample: in non-blocking mode the session sends *two*
`function_call_output` envelopes with the `{status:"executing"}` payload
for one completed call — one through `on_tool_started`
(`_handle_tool_started`) and one through `on_tool_result` with the
immediate payload (`_handle_tool_result`) — not exactly one as claimed. -/
theorem c2_double_executing_counterexample :
    ((handleFunctionCallDone c2Processor ⟨some "f", "c1", none⟩ (fun _ => true) 0
        (.ok "ok")).2.filter
      (fun msg => msg = .functionCallOutput "c1" .executing)).length = 2 := by
  decide

theorem executeTool_pending (t : FunctionCallProcessor) (c : String) (k : Nat)
    (b : Except String String) :
    (executeTool t c k b).1.pendingFunctionCalls = t.pendingFunctionCalls := by
  unfold executeTool
  split_ifs
  · rfl
  · cases b <;> rfl

/-- C2 as amended: for a completed call resolving to a registered tool in
non-blocking mode, the session immediately sends exactly *two* executing
acknowledgments (one via `on_tool_started`, one via the immediate
`on_tool_result`), registers the background task in `active_tool_tasks`,
and on task completion sends exactly one `function_call_output` with the
real result followed by `response.create`, removing the task. -/
theorem c2_nonblocking_tool_flow (s : FunctionCallProcessor) (ev : DoneEvent)
    (parseOk : String → Bool) (taskId : Nat) (bo : Except String String)
    (pfc : PendingFunctionCall) (n r : String)
    (hnb : s.nonBlockingToolsCalling = true)
    (hacc : s.pendingFunctionCalls.lookup ev.callId = some pfc)
    (hname : ev.name = some n) (hn : n ≠ "") (htool : n ∈ s.tools)
    (hparse : parseOk pfc.arguments = true) :
    (handleFunctionCallDone s ev parseOk taskId bo).2 =
      [.functionCallOutput ev.callId .executing,
       .functionCallOutput ev.callId .executing] ∧
    (handleFunctionCallDone s ev parseOk taskId bo).1.activeToolTasks =
      s.activeToolTasks ++ [taskId] ∧
    (toolTaskComplete (handleFunctionCallDone s ev parseOk taskId bo).1 taskId
        ev.callId (.ok r)).2 =
      [.functionCallOutput ev.callId (.result r), .responseCreate] ∧
    taskId ∉ (toolTaskComplete (handleFunctionCallDone s ev parseOk taskId bo).1 taskId
        ev.callId (.ok r)).1.activeToolTasks := by
  have htruthy : pyTruthyStr (some n) = true := by
    simpa [pyTruthyStr] using hn
  refine ⟨?_, ?_, ?_, ?_⟩ <;>
    simp [handleFunctionCallDone, hacc, hname, htruthy, htool, hparse, executeTool,
      hnb, handleToolStarted, handleToolResult, toolTaskComplete]

/-- Witness for the C2 theorem: tool `"f"`, call `"c1"`, task id 7,
result string `"ok"`. -/
theorem c2_nonblocking_tool_flow_witness :
    (c2Processor.nonBlockingToolsCalling = true ∧
      c2Processor.pendingFunctionCalls.lookup "c1" =
        some ⟨"argjson", some "f", "c1"⟩ ∧
      (some "f" : Option String) = some "f" ∧ ("f" : String) ≠ "" ∧
      "f" ∈ c2Processor.tools ∧
      (fun (_ : String) => true) "argjson" = true) ∧
    ((handleFunctionCallDone c2Processor ⟨some "f", "c1", none⟩
        (fun _ => true) 7 (.ok "ignored")).2 =
      [.functionCallOutput "c1" .executing, .functionCallOutput "c1" .executing] ∧
    (handleFunctionCallDone c2Processor ⟨some "f", "c1", none⟩
        (fun _ => true) 7 (.ok "ignored")).1.activeToolTasks =
      c2Processor.activeToolTasks ++ [7] ∧
    (toolTaskComplete (handleFunctionCallDone c2Processor ⟨some "f", "c1", none⟩
        (fun _ => true) 7 (.ok "ignored")).1 7 "c1" (.ok "ok")).2 =
      [.functionCallOutput "c1" (.result "ok"), .responseCreate] ∧
    7 ∉ (toolTaskComplete (handleFunctionCallDone c2Processor ⟨some "f", "c1", none⟩
        (fun _ => true) 7 (.ok "ignored")).1 7 "c1" (.ok "ok")).1.activeToolTasks) :=
  ⟨⟨by decide, by decide, by decide, by decide, by decide, by decide⟩,
    c2_nonblocking_tool_flow c2Processor ⟨some "f", "c1", none⟩ (fun _ => true) 7
      (.ok "ignored") ⟨"argjson", some "f", "c1"⟩ "f" "ok"
      (by decide) (by decide) (by decide) (by decide) (by decide) (by decide)⟩

theorem lookup_filter_ne (l : List (String × PendingFunctionCall)) (cid : String) :
    (l.filter (fun p => p.1 ≠ cid)).lookup cid = none := by
  induction l with
  | nil => rfl
  | cons p rest ih =>
      obtain ⟨k, v⟩ := p
      by_cases h : k = cid
      · simpa [List.filter, h] using ih
      · have hbeq : (cid == k) = false :=
          beq_eq_false_iff_ne.mpr (fun he => h he.symm)
        simp [List.filter, List.lookup, h, hbeq, ih]
        exact fun a b _ hne hcid => hne hcid.symm

/-- The pending dict after `handle_function_call_done`: the entry for the
frame's call id is deleted when it existed, and nothing else changes on
any outcome. -/
theorem handleFunctionCallDone_pending (s : FunctionCallProcessor) (ev : DoneEvent)
    (parseOk : String → Bool) (taskId : Nat) (bo : Except String String) :
    (handleFunctionCallDone s ev parseOk taskId bo).1.pendingFunctionCalls =
      match s.pendingFunctionCalls.lookup ev.callId with
      | some _ => s.pendingFunctionCalls.filter (fun p => p.1 ≠ ev.callId)
      | none => s.pendingFunctionCalls := by
  unfold handleFunctionCallDone
  rcases hacc : s.pendingFunctionCalls.lookup ev.callId with _ | a
  all_goals simp only [hacc]
  all_goals split
  all_goals
    first
      | rfl
      | (split_ifs <;> first | rfl | rw [executeTool_pending])

/-- C10: processing a `function_call_arguments.done` frame never leaves a
pending entry for its call id: the accumulated entry (when present) is
deleted before any name resolution, parsing or execution, and no outcome
— unknown function, bad JSON, non-blocking dispatch or blocking execution
— re-creates it. -/
theorem c10_done_removes_pending (s : FunctionCallProcessor) (ev : DoneEvent)
    (parseOk : String → Bool) (taskId : Nat) (bo : Except String String) :
    (handleFunctionCallDone s ev parseOk taskId
        bo).1.pendingFunctionCalls.lookup ev.callId = none := by
  rw [handleFunctionCallDone_pending]
  rcases hacc : s.pendingFunctionCalls.lookup ev.callId with _ | a
  · exact hacc
  · exact lookup_filter_ne s.pendingFunctionCalls ev.callId

end CallAssistant
